import Mathlib

/-!
Verification development for the tool-server orchestration and dynamic
model registry subsystem of the mcp-chat repository.

The TypeScript sources are shallowly embedded:
- JavaScript objects used as string-keyed maps become association lists
  with insertion-order semantics (`setKey` mutates in place when the key
  exists, otherwise appends, exactly like `obj[k] = v`; `getKey` is
  property lookup; object spread is a left fold of `setKey`).
- Network effects are parameterised by explicit outcome values
  (a server is reachable / throws on connect / throws on tool query;
  a discovery probe yields a network error, a non-success response, or
  a parsed body), so every embedded function is total: a `try/catch`
  in the source becomes a branch on the outcome value.
- `withReasoning(client(m))` values are represented by the `Binding`
  inductive recording which client produced them and with which model
  string, which is exactly the information that distinguishes them.
-/

/-- JS-object membership test: does the record have the key. -/
def hasKey {α : Type} (m : List (String × α)) (k : String) : Bool :=
  m.any (fun p => p.1 == k)

/-- JS property read: first entry with the key (objects have unique keys). -/
def getKey {α : Type} (m : List (String × α)) (k : String) : Option α :=
  (m.find? (fun p => p.1 == k)).map (fun p => p.2)

/-- JS property write `obj[k] = v`: overwrite in place if the key exists
(keeping its position, as JS objects keep insertion order), else append. -/
def setKey {α : Type} (m : List (String × α)) (k : String) (v : α) : List (String × α) :=
  if hasKey m k then m.map (fun p => if p.1 == k then (k, v) else p) else m ++ [(k, v)]

/-- Object spread `\x7b...a, ...b\x7d` / `Object.assign(a, b)`: fold the
entries of `b` into `a`, later entries overwriting earlier ones. -/
def jsSpread {α : Type} (a b : List (String × α)) : List (String × α) :=
  b.foldl (fun m p => setKey m p.1 p.2) a

/-- `listStarts pat hay`: does the character list `hay` begin with `pat`. -/
def listStarts : List Char → List Char → Bool
  | [], _ => true
  | _ :: _, [] => false
  | a :: as, b :: bs => a == b && listStarts as bs

/-- JS `hay.includes(pat)` on character lists. -/
def charsContains (pat : List Char) : List Char → Bool
  | [] => pat.isEmpty
  | c :: t => listStarts pat (c :: t) || charsContains pat t

/-- JS `s.includes(sub)` for strings. -/
def jsIncludes (s sub : String) : Bool :=
  charsContains sub.toList s.toList

/-- JS `s.toLowerCase()` (character-wise, as all registry identifiers are
ASCII). -/
def jsToLower (s : String) : String :=
  String.mk (s.toList.map Char.toLower)

/-- JS `s.startsWith(pat)`. -/
def jsStartsWith (s pat : String) : Bool :=
  listStarts pat.toList s.toList

namespace Providers

/-- A concrete language-model binding, i.e. the value
`withReasoning(client(modelString))` identified by which client built it
(src/ai/providers.ts). -/
inductive Binding where
  | groq (apiModel : String)
  | xai (apiModel : String)
  | localOpenAI (baseURL : String) (apiModel : String)
deriving DecidableEq

/-- `ModelInfo` from src/ai/providers.ts. -/
structure ModelInfo where
  provider : String
  name : String
  description : String
  apiVersion : String
  capabilities : List String
deriving DecidableEq

/-- One entry of `modelEndpointMap` from src/ai/providers.ts. -/
structure Endpoint where
  baseURL : String
  apiKey : Option String
deriving DecidableEq

/-- The module-level mutable state of src/ai/providers.ts:
`languageModels`, `modelDetails` and `modelEndpointMap`. -/
structure ProvidersState where
  languageModels : List (String × Binding)
  modelDetails : List (String × ModelInfo)
  modelEndpointMap : List (String × Endpoint)
deriving DecidableEq

/-- `baseLanguageModels` (src/ai/providers.ts lines 67-72), in source
insertion order. -/
def baseLanguageModels : List (String × Binding) :=
  [("qwen3-32b", Binding.groq "qwen/qwen3-32b"),
   ("grok-3-mini", Binding.xai "grok-3-mini-latest"),
   ("kimi-k2", Binding.groq "moonshotai/kimi-k2-instruct"),
   ("llama4", Binding.groq "meta-llama/llama-4-scout-17b-16e-instruct")]

/-- `baseModelDetails` (src/ai/providers.ts lines 75-104), in source
insertion order. -/
def baseModelDetails : List (String × ModelInfo) :=
  [("kimi-k2",
    { provider := "Groq", name := "Kimi K2",
      description := "Latest version of Moonshot AI Kimi K2 with good balance of capabilities.",
      apiVersion := "kimi-k2-instruct",
      capabilities := ["Balanced", "Efficient", "Agentic"] }),
   ("qwen3-32b",
    { provider := "Groq", name := "Qwen 3 32B",
      description := "Latest version of Alibaba Qwen 32B with strong reasoning and coding capabilities.",
      apiVersion := "qwen3-32b",
      capabilities := ["Reasoning", "Efficient", "Agentic"] }),
   ("grok-3-mini",
    { provider := "XAI", name := "Grok 3 Mini",
      description := "Latest version of XAI Grok 3 Mini with strong reasoning and coding capabilities.",
      apiVersion := "grok-3-mini-latest",
      capabilities := ["Reasoning", "Efficient", "Agentic"] }),
   ("llama4",
    { provider := "Groq", name := "Llama 4",
      description := "Latest version of Meta Llama 4 with good balance of capabilities.",
      apiVersion := "llama-4-scout-17b-16e-instruct",
      capabilities := ["Balanced", "Efficient", "Agentic"] })]

/-- The module initial state (src/ai/providers.ts lines 107-108 plus the
empty `modelEndpointMap` of line 20). -/
def initialState : ProvidersState :=
  { languageModels := baseLanguageModels,
    modelDetails := baseModelDetails,
    modelEndpointMap := [] }

/-- `defaultModel` (src/ai/providers.ts line 333). -/
def defaultModel : String := "kimi-k2"

/-- The four built-in model identifiers. -/
def builtinIds : List String := ["qwen3-32b", "grok-3-mini", "kimi-k2", "llama4"]

/-- The metadata backfilled by `getLanguageModel` when it creates a
binding on demand and `modelDetails` has no entry yet
(src/ai/providers.ts lines 364-372). -/
def defaultLocalInfo (id : String) : ModelInfo :=
  { provider := "Local", name := id,
    description := "Local model " ++ id,
    apiVersion := id, capabilities := ["Local"] }

/-- `getLanguageModel` (src/ai/providers.ts lines 336-414). Returns the
binding the source returns (`none` embeds the `undefined` the final
line would produce if even the default model were absent) together with
the state after the on-demand registration side effects. -/
def getLanguageModel (s : ProvidersState) (id : String) : Option Binding × ProvidersState :=
  match getKey s.languageModels id with
  | some b => (some b, s)
  | none =>
    match getKey s.modelEndpointMap id with
    | some ep =>
      (some (Binding.localOpenAI ep.baseURL id),
       { s with
           languageModels := setKey s.languageModels id (Binding.localOpenAI ep.baseURL id),
           modelDetails :=
             if (getKey s.modelDetails id).isSome then s.modelDetails
             else setKey s.modelDetails id (defaultLocalInfo id) })
    | none =>
      match (if jsIncludes id "qwen" then
               s.languageModels.find? (fun p => jsIncludes (jsToLower p.1) "qwen")
             else none) with
      | some p => (some p.2, s)
      | none =>
        match s.languageModels.find? (fun p => jsIncludes p.1 id) with
        | some p => (some p.2, s)
        | none =>
          match s.languageModels.filter (fun p =>
              !(jsStartsWith p.1 "qwen") && !(jsStartsWith p.1 "grok") &&
              !(jsStartsWith p.1 "kimi") && !(jsStartsWith p.1 "llama")) with
          | p :: _ => (some p.2, s)
          | [] => (getKey s.languageModels defaultModel, s)

/-- Resolution step 1: exact key match (src/ai/providers.ts line 342). -/
def stepExact (s : ProvidersState) (id : String) : Option Binding :=
  getKey s.languageModels id

/-- Resolution step 2: on-demand creation from `modelEndpointMap`
(src/ai/providers.ts lines 348-378). -/
def stepOnDemand (s : ProvidersState) (id : String) : Option Binding :=
  (getKey s.modelEndpointMap id).map (fun ep => Binding.localOpenAI ep.baseURL id)

/-- Resolution step 3: special handling for requests containing "qwen"
(src/ai/providers.ts lines 384-392). -/
def stepQwen (s : ProvidersState) (id : String) : Option Binding :=
  if jsIncludes id "qwen" then
    (s.languageModels.find? (fun p => jsIncludes (jsToLower p.1) "qwen")).map (fun p => p.2)
  else none

/-- Resolution step 4: first registered key containing the request as a
case-sensitive substring (src/ai/providers.ts lines 395-400). -/
def stepSubstring (s : ProvidersState) (id : String) : Option Binding :=
  (s.languageModels.find? (fun p => jsIncludes p.1 id)).map (fun p => p.2)

/-- Resolution step 5: first key not starting with a built-in name stem
(src/ai/providers.ts lines 403-409). -/
def stepFirstLocal (s : ProvidersState) : Option Binding :=
  ((s.languageModels.filter (fun p =>
      !(jsStartsWith p.1 "qwen") && !(jsStartsWith p.1 "grok") &&
      !(jsStartsWith p.1 "kimi") && !(jsStartsWith p.1 "llama"))).head?).map (fun p => p.2)

/-- Resolution step 6: the default model (src/ai/providers.ts line 413). -/
def stepDefault (s : ProvidersState) : Option Binding :=
  getKey s.languageModels defaultModel

/-- The resolution chain of `getLanguageModel` re-expressed as an ordered
fallback of the six steps. -/
def resolveImpl (s : ProvidersState) (id : String) : Option Binding :=
  (stepExact s id).orElse (fun _ =>
    (stepOnDemand s id).orElse (fun _ =>
      (stepQwen s id).orElse (fun _ =>
        (stepSubstring s id).orElse (fun _ =>
          (stepFirstLocal s).orElse (fun _ =>
            stepDefault s)))))

/-- Modelled from the claim text (for the refinement comparison, not from
the source): resolution as (1) exact match; (2) case-insensitive
substring match against registered identifiers in iteration order;
(3) first identifier outside the built-in set; (4) the default
built-in "kimi-k2". -/
def resolveByClaimOrder (s : ProvidersState) (id : String) : Option Binding :=
  (getKey s.languageModels id).orElse (fun _ =>
    ((s.languageModels.find? (fun p => jsIncludes (jsToLower p.1) (jsToLower id))).map (fun p => p.2)).orElse (fun _ =>
      ((s.languageModels.filter (fun p => !(builtinIds.contains p.1))).head?.map (fun p => p.2)).orElse (fun _ =>
        getKey s.languageModels "kimi-k2")))

/-- One model record fetched from the `/api/models` endpoint, as consumed
by `refreshModels` (src/ai/providers.ts lines 186-236). -/
structure FetchedModel where
  id : String
  provider : String
  name : String
  description : Option String
  apiVersion : Option String
  capabilities : Option (List String)
  baseUrl : Option String
  apiKey : Option String
deriving DecidableEq

/-- JS `s.endsWith(pat)`. -/
def jsEndsWith (s pat : String) : Bool :=
  listStarts pat.toList.reverse s.toList.reverse

/-- `model.baseUrl.endsWith('/v1') ? model.baseUrl : baseUrl + '/v1'`
(src/ai/providers.ts line 191). -/
def ensureV1 (u : String) : String :=
  if jsEndsWith u "/v1" then u else u ++ "/v1"

/-- The first `models.forEach` of `refreshModels` for one record: register
the endpoint of a non-Groq, non-XAI model that has a `baseUrl`
(src/ai/providers.ts lines 189-199). -/
def registerEndpointStep (s : ProvidersState) (m : FetchedModel) : ProvidersState :=
  if m.provider != "Groq" && m.provider != "XAI" then
    match m.baseUrl with
    | some u =>
      { s with modelEndpointMap :=
          setKey s.modelEndpointMap m.id { baseURL := ensureV1 u, apiKey := m.apiKey } }
    | none => s
  else s

/-- The second `models.forEach` of `refreshModels` for one record: create
and register the language model and its details when endpoint
information exists (src/ai/providers.ts lines 204-236). -/
def createModelStep (s : ProvidersState) (m : FetchedModel) : ProvidersState :=
  if m.provider != "Groq" && m.provider != "XAI" then
    match getKey s.modelEndpointMap m.id with
    | some ep =>
      { s with
          languageModels := setKey s.languageModels m.id (Binding.localOpenAI ep.baseURL m.id),
          modelDetails := setKey s.modelDetails m.id
            { provider := m.provider, name := m.name,
              description := m.description.getD ("Local model from " ++ m.provider),
              apiVersion := m.apiVersion.getD m.id,
              capabilities := m.capabilities.getD ["Local"] } }
    | none => s
  else s

/-- The state right after `refreshModels` cleared the three maps and
re-added the base models (src/ai/providers.ts lines 170-182). Clearing
every key and then `Object.assign`-ing the base records yields exactly
the base maps, whatever the previous state was. -/
def clearAndBase : ProvidersState :=
  { languageModels := baseLanguageModels,
    modelDetails := baseModelDetails,
    modelEndpointMap := [] }

/-- `refreshModels` applied to the model list fetched by `getAllModels`
(src/ai/providers.ts lines 159-251): clear and re-add base models, then
register endpoints, then create the dynamic models. -/
def refreshModels (_prev : ProvidersState) (models : List FetchedModel) : ProvidersState :=
  models.foldl createModelStep (models.foldl registerEndpointStep clearAndBase)

/-!
Event-loop model for the concurrency claim. JavaScript is single
threaded with run-to-completion: a task runs without interruption until
its next `await`. `refreshModels` suspends once (the `await` inside
`getAllModels`, before any mutation) and then performs all of its
registry mutation in one synchronous block (src/ai/providers.ts lines
167-247 contain no `await` after the fetch). A concurrent `resolve`
therefore runs either before that block or after it, never inside it.
We model the refresh as a list of jobs, each job being a list of
fine-grained mutation steps executed atomically, and observers as
running only at job boundaries.
-/

/-- The fine-grained mutations of the synchronous block of
`refreshModels`, in source order: delete every key of the three maps
(lines 172-177), re-add the base models (lines 180-181), register each
endpoint (lines 189-199), then create each dynamic model (lines
204-236). -/
def refreshMicroSteps (models : List FetchedModel) : List (ProvidersState → ProvidersState) :=
  [fun s => { s with languageModels := [] },
   fun s => { s with modelDetails := [] },
   fun s => { s with modelEndpointMap := [] },
   fun s => { s with languageModels := jsSpread s.languageModels baseLanguageModels,
                     modelDetails := jsSpread s.modelDetails baseModelDetails }]
  ++ models.map (fun m => fun s => registerEndpointStep s m)
  ++ models.map (fun m => fun s => createModelStep s m)

/-- Run one job: apply its mutation steps in order, without
interruption. -/
def runJob (s : ProvidersState) (steps : List (ProvidersState → ProvidersState)) : ProvidersState :=
  steps.foldl (fun st f => f st) s

/-- `refreshModels` as the event-loop sees it: a first job that performs
the network fetch and mutates nothing, then one synchronous job holding
every registry mutation. -/
def refreshJobs (models : List FetchedModel) : List (List (ProvidersState → ProvidersState)) :=
  [[], refreshMicroSteps models]

/-- The registry states observable by a concurrent reader: the state at
each job boundary of the refresh. -/
def observableStates (s : ProvidersState) (models : List FetchedModel) : List ProvidersState :=
  List.scanl runJob s (refreshJobs models)

/-- The registry/details invariant: every identifier registered in
`languageModels` has a metadata entry in `modelDetails`. -/
def detailsInv (s : ProvidersState) : Prop :=
  ∀ p ∈ s.languageModels, (getKey s.modelDetails p.1).isSome

instance (s : ProvidersState) : Decidable (detailsInv s) := by
  unfold detailsInv; infer_instance

end Providers

namespace MCP

/-!
Embedding of `initializeMCPClients` / `cleanupMCPClients`
(lib/mcp-client.ts, quoted in full in src/docs/mcp-server-db.md lines
1381-1495). The body of the per-server loop can throw at two points:
`createMCPClient` (connect) and `mcpClient.tools()` (catalog query);
both are inside one `try` whose `catch` logs and continues. We
parameterise each configured server by which of these outcomes the
network produces. -/

/-- A tool descriptor exposed by an MCP server. -/
structure MCPTool where
  description : String
  inputSchema : String
deriving DecidableEq

/-- What the network does for one configured server:
`connectFail` — `createMCPClient` throws; `toolsFail` — the client opens
but `mcpClient.tools()` throws; `ok` — both succeed, yielding the
server's tool map. -/
inductive ServerBehavior where
  | connectFail
  | toolsFail
  | ok (tools : List (String × MCPTool))
deriving DecidableEq

/-- One configured server together with its network behaviour. -/
structure ServerSim where
  url : String
  behavior : ServerBehavior
deriving DecidableEq

/-- The result of `initializeMCPClients`: the merged tool map and the
urls of the successfully opened clients (the `mcpClients` array), in
order. -/
structure InitResult where
  tools : List (String × MCPTool)
  clients : List String
deriving DecidableEq

/-- One iteration of the `for` loop of `initializeMCPClients`
(doc lines 1402-1448): on connect failure the `catch` skips the server
entirely; if the client opens it is pushed onto `mcpClients` before
`tools()` is called, so a tools failure still records the client; on
success the tool map is spread-merged, later entries overwriting. -/
def initStep (r : InitResult) (srv : ServerSim) : InitResult :=
  match srv.behavior with
  | ServerBehavior.connectFail => r
  | ServerBehavior.toolsFail => { r with clients := r.clients ++ [srv.url] }
  | ServerBehavior.ok ts =>
      { tools := jsSpread r.tools ts, clients := r.clients ++ [srv.url] }

/-- `initializeMCPClients` (doc lines 1381-1469): fold the per-server
loop over the configuration list, starting from an empty tool map and
an empty client list. Totality of this function embeds the fact that
the loop catches every per-server error and the caller never sees an
exception. -/
def initializeMCPClients (servers : List ServerSim) : InitResult :=
  servers.foldl initStep { tools := [], clients := [] }

/-- The tool maps of the servers whose connect and catalog query both
succeeded, in configuration order. -/
def reachableToolMaps (servers : List ServerSim) : List (List (String × MCPTool)) :=
  servers.filterMap (fun srv =>
    match srv.behavior with
    | ServerBehavior.ok ts => some ts
    | _ => none)

/-- Merge a list of per-server tool maps left to right with JS spread
semantics (later maps overwrite on key collision). -/
def mergeAll (ms : List (List (String × MCPTool))) : List (String × MCPTool) :=
  ms.foldl jsSpread []

/-- `cleanupMCPClients` (doc lines 1481-1491), observed through its
effect trace: each invocation calls `client.disconnect?.()` once per
client in the list, appending one disconnect attempt per client to the
trace. Individual disconnect errors are caught and swallowed, so the
trace grows the same way whether a disconnect throws or not, and the
function always returns. -/
def cleanupMCPClients (clients : List String) (disconnectTrace : List String) : List String :=
  disconnectTrace ++ clients

/-- The `cleanup` closure returned by `initializeMCPClients`
(doc line 1467): it invokes `cleanupMCPClients` on the captured
`mcpClients` array, unconditionally — the source keeps no flag
recording that cleanup already ran. -/
def runCleanup (r : InitResult) (disconnectTrace : List String) : List String :=
  cleanupMCPClients r.clients disconnectTrace

/-- Did both the connect and the tool query of this behaviour succeed. -/
def isOk : ServerBehavior → Bool
  | ServerBehavior.ok _ => true
  | _ => false

end MCP

namespace Discovery

/-- Outcome of one HTTP probe: the fetch threw, the response was not ok,
or the response was ok with parsed body `α`. -/
inductive ProbeOutcome (α : Type) where
  | netError
  | httpFail
  | ok (body : α)
deriving DecidableEq

/-- One record of the OpenAI-compatible `/models` listing; `id` and
`name` may each be absent. -/
structure FallbackRec where
  id : Option String
  name : Option String
deriving DecidableEq

/-- JS `a || b` on possibly-absent strings: an absent or empty string is
falsy. -/
def jsOrStr (a b : Option String) : Option String :=
  match a with
  | some s => if s = "" then b else some s
  | none => b

/-- `discoverModels` (src/unnamed/part_004 lines 200-259): try the
Ollama `/api/tags` listing first; if its response is ok return
`data.models?.map(m => m.name) || []` (even when the `models` field is
absent); otherwise try the OpenAI-compatible `/models` listing and, if
its response is ok and `data.data` is an array, return
`data.data.map(m => m.id || m.name)`; in every other case return the
empty list. The primary body is the optional list of model names; the
secondary body is the optional `data.data` array. Totality embeds the
outer catch: the function never throws. -/
def discoverModels (primary : ProbeOutcome (Option (List String)))
    (secondary : ProbeOutcome (Option (List FallbackRec))) : List (Option String) :=
  match primary with
  | ProbeOutcome.ok body => (body.getD []).map some
  | _ =>
    match secondary with
    | ProbeOutcome.ok (some recs) => recs.map (fun r => jsOrStr r.id r.name)
    | _ => []

/-- `fetchOllamaModels` (src/unnamed/part_002 lines 83-141): same probe
order, but the Ollama branch reads `data.models.map(...)` without
optional chaining — a missing `models` field throws a TypeError that
the inner catch swallows, falling through to the secondary probe — and
when both probes fail the function returns `['default']` instead of an
empty list. -/
def fetchOllamaModels (primary : ProbeOutcome (Option (List String)))
    (secondary : ProbeOutcome (Option (List FallbackRec))) : List (Option String) :=
  match primary with
  | ProbeOutcome.ok (some names) => names.map some
  | _ =>
    match secondary with
    | ProbeOutcome.ok (some recs) => recs.map (fun r => jsOrStr r.id r.name)
    | _ => [some "default"]

/-- The primary probe failed: network error or non-success response. -/
def primaryFailed (o : ProbeOutcome (Option (List String))) : Prop :=
  o = ProbeOutcome.netError ∨ o = ProbeOutcome.httpFail

/-- The secondary probe produced no usable listing: network error,
non-success response, or a body without a `data` array. -/
def secondaryFailed (o : ProbeOutcome (Option (List FallbackRec))) : Prop :=
  o = ProbeOutcome.netError ∨ o = ProbeOutcome.httpFail ∨ o = ProbeOutcome.ok none

end Discovery

namespace Tracker

/-- `ServerStatus` (lib/context/mcp-context.tsx, quoted in
src/docs/mcp-server-db.md lines 1514-1518). -/
inductive ServerStatus where
  | disconnected
  | connecting
  | connected
  | error
deriving DecidableEq

/-- Modelled from the spec: `stopServer` lives in
lib/context/mcp-context.tsx, which is not under src/; spec section 4.2
gives its status transition as "connected→disconnected (explicit
stop)", so a stop that completes is observed as one `disconnected`
status. -/
def stopServerObserved : List ServerStatus := [ServerStatus.disconnected]

/-- Modelled from the spec: `startServer` lives in
lib/context/mcp-context.tsx, which is not under src/; spec section 4.2
gives its outcome transitions as "connecting→connected (discovery
succeeded); connecting→error (timeout, refusal, or protocol
violation)", so a start attempt is observed as `connected` on success
and `error` on failure. -/
def startServerObserved (success : Bool) : List ServerStatus :=
  [if success then ServerStatus.connected else ServerStatus.error]

/-- The status values observed during `restartServer`
(src/unnamed/part_000 lines 1113-1145), starting from the status the
server had when it was called: the source stops the server first when
its status is connected or connecting, then — after the fixed 500 ms
`setTimeout` settle window — calls `updateServerStatus(id,
'connecting')` and starts the server again. -/
def restartServerTrace (initial : ServerStatus) (startSucceeds : Bool) : List ServerStatus :=
  initial ::
    ((if initial = ServerStatus.connected ∨ initial = ServerStatus.connecting then
        stopServerObserved
      else []) ++
     (ServerStatus.connecting :: startServerObserved startSucceeds))

end Tracker

/-! ## Helper lemmas about the JS-object embedding -/

theorem getKey_setKey_self {α : Type} (m : List (String × α)) (k : String) (v : α) :
    getKey (setKey m k v) k = some v := by
  unfold setKey
  by_cases h : hasKey m k
  · simp only [h, if_true]
    induction m with
    | nil => simp [hasKey] at h
    | cons p t ih =>
      by_cases hp : p.1 == k
      · simp [getKey, List.find?, hp]
      · have ht : hasKey t k := by
          simp [hasKey, List.any] at h ⊢
          rcases h with h | h
          · exact absurd (by simpa using h) (by simpa using hp)
          · simpa [hasKey] using h
        have := ih ht
        simpa [getKey, List.find?, hp] using this
  · simp only [h, if_false]
    induction m with
    | nil => simp [getKey, List.find?]
    | cons p t ih =>
      have hp : ¬(p.1 == k) := by
        intro hc
        exact h (by simp [hasKey, List.any]; exact Or.inl (by simpa using hc))
      have ht : ¬ hasKey t k := by
        intro hc
        exact h (by simp [hasKey, List.any] at hc ⊢; exact Or.inr hc)
      have := ih ht
      simpa [getKey, List.find?, hp] using this

theorem getKey_setKey_ne {α : Type} (m : List (String × α)) (k k' : String) (v : α)
    (h : k' ≠ k) : getKey (setKey m k v) k' = getKey m k' := by
  unfold setKey
  by_cases hm : hasKey m k
  · simp only [hm, if_true]
    clear hm
    induction m with
    | nil => simp [getKey, List.find?]
    | cons p t ih =>
      by_cases hp : p.1 == k
      · have hkk : ¬((k : String) == k') := by simpa using fun hc => h hc.symm
        have hpk : ¬(p.1 == k') := by
          have : p.1 = k := by simpa using hp
          simpa [this] using hkk
        simpa [getKey, List.find?, hp, hkk, hpk] using ih
      · by_cases hq : p.1 == k'
        · simp [getKey, List.find?, hp, hq]
        · simpa [getKey, List.find?, hp, hq] using ih
  · simp only [hm, if_false]
    clear hm
    induction m with
    | nil =>
      have : ¬((k : String) == k') := by simpa using fun hc => h hc.symm
      simp [getKey, List.find?, this]
    | cons p t ih =>
      by_cases hq : p.1 == k'
      · simp [getKey, List.find?, hq]
      · simpa [getKey, List.find?, hq] using ih

theorem isSome_getKey_setKey {α : Type} (m : List (String × α)) (k k' : String) (v : α)
    (h : (getKey m k').isSome) : (getKey (setKey m k v) k').isSome := by
  by_cases hk : k' = k
  · subst hk; simp [getKey_setKey_self]
  · rw [getKey_setKey_ne m k k' v hk]; exact h

theorem jsSpread_cons {α : Type} (m : List (String × α)) (p : String × α)
    (ts : List (String × α)) :
    jsSpread m (p :: ts) = jsSpread (setKey m p.1 p.2) ts := rfl

theorem getKey_jsSpread_of_not_mem {α : Type} (ts m : List (String × α)) (k : String)
    (h : ∀ p ∈ ts, p.1 ≠ k) : getKey (jsSpread m ts) k = getKey m k := by
  induction ts generalizing m with
  | nil => rfl
  | cons p t ih =>
    rw [jsSpread_cons]
    rw [ih (setKey m p.1 p.2) (fun q hq => h q (List.mem_cons_of_mem p hq))]
    exact getKey_setKey_ne m p.1 k p.2 (fun hc => h p (List.mem_cons_self p t) (hc ▸ rfl))

theorem getKey_jsSpread_right {α : Type} (ts m : List (String × α)) (k : String)
    (hnd : (ts.map Prod.fst).Nodup) (hk : (getKey ts k).isSome) :
    getKey (jsSpread m ts) k = getKey ts k := by
  induction ts generalizing m with
  | nil => simp [getKey, List.find?] at hk
  | cons p t ih =>
    rw [List.map_cons] at hnd
    obtain ⟨hnotin, hnd2⟩ := List.nodup_cons.mp hnd
    rw [jsSpread_cons]
    by_cases hp : p.1 = k
    · have hmem : ∀ q ∈ t, q.1 ≠ k := by
        intro q hq hc
        exact hnotin (hp ▸ hc ▸ List.mem_map_of_mem Prod.fst hq)
      rw [getKey_jsSpread_of_not_mem t (setKey m p.1 p.2) k hmem]
      rw [hp, getKey_setKey_self]
      simp [getKey, List.find?, hp]
    · have hpk : ¬(p.1 == k) := by simpa using hp
      have hk2 : (getKey t k).isSome := by simpa [getKey, List.find?, hpk] using hk
      rw [ih (setKey m p.1 p.2) hnd2 hk2]
      simp [getKey, List.find?, hpk]

theorem orElse_isSome_of_right {α : Type} (a : Option α) (f : Unit → Option α)
    (h : (f ()).isSome) : (a.orElse f).isSome := by
  cases a <;> simp [Option.orElse, h]

/-! ## The resolution chain of getLanguageModel -/

namespace Providers

theorem getLanguageModel_fst_eq (s : ProvidersState) (id : String) :
    (getLanguageModel s id).1 = resolveImpl s id := by
  unfold getLanguageModel resolveImpl stepExact stepOnDemand stepQwen stepSubstring
    stepFirstLocal stepDefault
  cases h1 : getKey s.languageModels id with
  | some b => simp [Option.orElse, h1]
  | none =>
    cases h2 : getKey s.modelEndpointMap id with
    | some ep => simp [Option.orElse, h1, h2]
    | none =>
      by_cases hq : jsIncludes id "qwen"
      · simp only [hq, if_true]
        cases h3 : s.languageModels.find? (fun p => jsIncludes (jsToLower p.1) "qwen") with
        | some p => simp [Option.orElse, h1, h2, h3]
        | none =>
          cases h4 : s.languageModels.find? (fun p => jsIncludes p.1 id) with
          | some p => simp [Option.orElse, h1, h2, h3, h4]
          | none =>
            cases h5 : s.languageModels.filter (fun p =>
                !(jsStartsWith p.1 "qwen") && !(jsStartsWith p.1 "grok") &&
                !(jsStartsWith p.1 "kimi") && !(jsStartsWith p.1 "llama")) with
            | cons p l => simp [Option.orElse, List.head?, h1, h2, h3, h4, h5]
            | nil => simp [Option.orElse, List.head?, h1, h2, h3, h4, h5]
      · simp only [hq, if_false]
        cases h4 : s.languageModels.find? (fun p => jsIncludes p.1 id) with
        | some p => simp [Option.orElse, h1, h2, h4]
        | none =>
          cases h5 : s.languageModels.filter (fun p =>
              !(jsStartsWith p.1 "qwen") && !(jsStartsWith p.1 "grok") &&
              !(jsStartsWith p.1 "kimi") && !(jsStartsWith p.1 "llama")) with
          | cons p l => simp [Option.orElse, List.head?, h1, h2, h4, h5]
          | nil => simp [Option.orElse, List.head?, h1, h2, h4, h5]

end Providers

namespace Providers

theorem runJob_append (s : ProvidersState) (l1 l2 : List (ProvidersState → ProvidersState)) :
    runJob s (l1 ++ l2) = runJob (runJob s l1) l2 := by
  unfold runJob; exact List.foldl_append _ _ l1 l2

theorem runJob_refreshMicroSteps (s : ProvidersState) (models : List FetchedModel) :
    runJob s (refreshMicroSteps models) = refreshModels s models := by
  unfold refreshMicroSteps
  rw [runJob_append, runJob_append]
  have h4 : runJob s [fun s => { s with languageModels := [] },
              fun s => { s with modelDetails := [] },
              fun s => { s with modelEndpointMap := [] },
              fun s => { s with languageModels := jsSpread s.languageModels baseLanguageModels,
                                modelDetails := jsSpread s.modelDetails baseModelDetails }] =
      clearAndBase := rfl
  rw [h4]
  unfold runJob refreshModels
  rw [List.foldl_map, List.foldl_map]

theorem observableStates_eq (s : ProvidersState) (models : List FetchedModel) :
    observableStates s models = [s, s, refreshModels s models] := by
  have h0 : runJob s [] = s := rfl
  unfold observableStates refreshJobs
  simp [List.scanl, h0, runJob_refreshMicroSteps s models]

end Providers

namespace Providers

theorem registerEndpointStep_languageModels (s : ProvidersState) (m : FetchedModel) :
    (registerEndpointStep s m).languageModels = s.languageModels := by
  unfold registerEndpointStep
  split
  · cases m.baseUrl <;> rfl
  · rfl

theorem registerEndpointStep_modelDetails (s : ProvidersState) (m : FetchedModel) :
    (registerEndpointStep s m).modelDetails = s.modelDetails := by
  unfold registerEndpointStep
  split
  · cases m.baseUrl <;> rfl
  · rfl

theorem foldl_registerEndpointStep_languageModels (models : List FetchedModel)
    (s : ProvidersState) :
    (models.foldl registerEndpointStep s).languageModels = s.languageModels := by
  induction models generalizing s with
  | nil => rfl
  | cons m t ih =>
    simp only [List.foldl_cons]
    rw [ih, registerEndpointStep_languageModels]

theorem foldl_registerEndpointStep_modelDetails (models : List FetchedModel)
    (s : ProvidersState) :
    (models.foldl registerEndpointStep s).modelDetails = s.modelDetails := by
  induction models generalizing s with
  | nil => rfl
  | cons m t ih =>
    simp only [List.foldl_cons]
    rw [ih, registerEndpointStep_modelDetails]

theorem createModelStep_getKey_ne (s : ProvidersState) (m : FetchedModel) (b : String)
    (h : m.id ≠ b) :
    getKey (createModelStep s m).languageModels b = getKey s.languageModels b := by
  unfold createModelStep
  split
  · cases hep : getKey s.modelEndpointMap m.id with
    | some ep => simpa using getKey_setKey_ne s.languageModels m.id b _ (fun hc => h hc.symm)
    | none => rfl
  · rfl

theorem createModelStep_isSome (s : ProvidersState) (m : FetchedModel) (b : String)
    (h : (getKey s.languageModels b).isSome) :
    (getKey (createModelStep s m).languageModels b).isSome := by
  unfold createModelStep
  split
  · cases hep : getKey s.modelEndpointMap m.id with
    | some ep => simpa using isSome_getKey_setKey s.languageModels m.id b _ h
    | none => exact h
  · exact h

theorem foldl_createModelStep_getKey_ne (models : List FetchedModel) (s : ProvidersState)
    (b : String) (h : ∀ m ∈ models, m.id ≠ b) :
    getKey (models.foldl createModelStep s).languageModels b = getKey s.languageModels b := by
  induction models generalizing s with
  | nil => rfl
  | cons m t ih =>
    simp only [List.foldl_cons]
    rw [ih _ (fun q hq => h q (List.mem_cons_of_mem m hq))]
    exact createModelStep_getKey_ne s m b (h m (List.mem_cons_self m t))

theorem foldl_createModelStep_isSome (models : List FetchedModel) (s : ProvidersState)
    (b : String) (h : (getKey s.languageModels b).isSome) :
    (getKey (models.foldl createModelStep s).languageModels b).isSome := by
  induction models generalizing s with
  | nil => exact h
  | cons m t ih =>
    simp only [List.foldl_cons]
    exact ih _ (createModelStep_isSome s m b h)

end Providers

theorem fst_of_mem_setKey {α : Type} (m : List (String × α)) (k : String) (v : α)
    (p : String × α) (hp : p ∈ setKey m k v) : p.1 = k ∨ ∃ q ∈ m, q.1 = p.1 := by
  unfold setKey at hp
  split at hp
  · obtain ⟨q, hq, hfq⟩ := List.mem_map.mp hp
    by_cases hqk : q.1 == k
    · left; rw [← hfq]; simp [hqk]
    · right; refine ⟨q, hq, ?_⟩; rw [← hfq]; simp [hqk]
  · rcases List.mem_append.mp hp with h | h
    · right; exact ⟨p, h, rfl⟩
    · left
      have : p = (k, v) := by simpa using h
      rw [this]

namespace Providers

theorem detailsInv_lookup (s : ProvidersState) (k : String) (hinv : detailsInv s)
    (h : (getKey s.languageModels k).isSome) : (getKey s.modelDetails k).isSome := by
  unfold getKey at h
  cases hf : s.languageModels.find? (fun p => p.1 == k) with
  | none => rw [hf] at h; simp at h
  | some p =>
    have hmem : p ∈ s.languageModels := List.mem_of_find?_eq_some hf
    have hkey : p.1 = k := by simpa using List.find?_some hf
    exact hkey ▸ hinv p hmem

theorem createModelStep_detailsInv (s : ProvidersState) (m : FetchedModel)
    (hinv : detailsInv s) : detailsInv (createModelStep s m) := by
  unfold createModelStep
  split
  · cases hep : getKey s.modelEndpointMap m.id with
    | some ep =>
      intro p hp
      simp only at hp ⊢
      rcases fst_of_mem_setKey s.languageModels m.id _ p hp with h | ⟨q, hq, hqp⟩
      · rw [h, getKey_setKey_self]; rfl
      · exact isSome_getKey_setKey _ m.id p.1 _ (hqp ▸ hinv q hq)
    | none => exact hinv
  · exact hinv

theorem refreshModels_detailsInv (s : ProvidersState) (models : List FetchedModel) :
    detailsInv (refreshModels s models) := by
  unfold refreshModels
  have hbase : detailsInv (models.foldl registerEndpointStep clearAndBase) := by
    unfold detailsInv
    rw [foldl_registerEndpointStep_languageModels, foldl_registerEndpointStep_modelDetails]
    decide
  generalize hgen : models.foldl registerEndpointStep clearAndBase = st at hbase ⊢
  clear hgen
  induction models generalizing st with
  | nil => exact hbase
  | cons m t ih =>
    simp only [List.foldl_cons]
    exact ih _ (createModelStep_detailsInv st m hbase)

theorem getLanguageModel_detailsInv (s : ProvidersState) (id : String)
    (hinv : detailsInv s) : detailsInv (getLanguageModel s id).2 := by
  unfold getLanguageModel
  cases h1 : getKey s.languageModels id with
  | some b => exact hinv
  | none =>
    cases h2 : getKey s.modelEndpointMap id with
    | some ep =>
      intro p hp
      simp only at hp ⊢
      rcases fst_of_mem_setKey s.languageModels id _ p hp with h | ⟨q, hq, hqp⟩
      · by_cases hd : (getKey s.modelDetails id).isSome
        · rw [if_pos hd]
          exact h ▸ hd
        · rw [if_neg hd]
          rw [h, getKey_setKey_self]; rfl
      · by_cases hd : (getKey s.modelDetails id).isSome
        · rw [if_pos hd]
          exact hqp ▸ hinv q hq
        · rw [if_neg hd]
          exact isSome_getKey_setKey _ id p.1 _ (hqp ▸ hinv q hq)
    | none =>
      cases h3 : (if jsIncludes id "qwen" then
          s.languageModels.find? (fun p => jsIncludes (jsToLower p.1) "qwen") else none) with
      | some p => exact hinv
      | none =>
        cases h4 : s.languageModels.find? (fun p => jsIncludes p.1 id) with
        | some p => exact hinv
        | none =>
          cases h5 : s.languageModels.filter (fun p =>
              !(jsStartsWith p.1 "qwen") && !(jsStartsWith p.1 "grok") &&
              !(jsStartsWith p.1 "kimi") && !(jsStartsWith p.1 "llama")) with
          | cons p l => exact hinv
          | nil => exact hinv

end Providers

namespace MCP

theorem foldl_initStep_tools (servers : List ServerSim) (r : InitResult) :
    (servers.foldl initStep r).tools = (reachableToolMaps servers).foldl jsSpread r.tools := by
  induction servers generalizing r with
  | nil => rfl
  | cons srv t ih =>
    cases hb : srv.behavior with
    | connectFail =>
      simp only [List.foldl_cons, reachableToolMaps, List.filterMap_cons, hb]
      have : initStep r srv = r := by
        unfold initStep; rw [hb]
      rw [this]
      exact ih _
    | toolsFail =>
      simp only [List.foldl_cons, reachableToolMaps, List.filterMap_cons, hb]
      have : initStep r srv = { r with clients := r.clients ++ [srv.url] } := by
        unfold initStep; rw [hb]
      rw [this]
      exact ih _
    | ok ts =>
      simp only [List.foldl_cons, reachableToolMaps, List.filterMap_cons, hb]
      have : initStep r srv = { tools := jsSpread r.tools ts, clients := r.clients ++ [srv.url] } := by
        unfold initStep; rw [hb]
      rw [this]
      simpa [reachableToolMaps] using ih { tools := jsSpread r.tools ts, clients := r.clients ++ [srv.url] }

theorem reachableToolMaps_nil_of_allFail (servers : List ServerSim)
    (h : ∀ srv ∈ servers, isOk srv.behavior = false) : reachableToolMaps servers = [] := by
  induction servers with
  | nil => rfl
  | cons srv t ih =>
    have hsrv := h srv (List.mem_cons_self srv t)
    unfold reachableToolMaps
    rw [List.filterMap_cons]
    cases hb : srv.behavior with
    | connectFail => exact ih (fun q hq => h q (List.mem_cons_of_mem srv hq))
    | toolsFail => exact ih (fun q hq => h q (List.mem_cons_of_mem srv hq))
    | ok ts => rw [hb] at hsrv; simp [isOk] at hsrv

end MCP

/-! ## Claim theorems -/

/-- Claim C1: for every input string id (including unregistered ones and
the empty string), `getLanguageModel` returns a binding — it never
throws and never returns undefined — given that the registry contains
the built-in models. -/
theorem claim_C1 (s : Providers.ProvidersState) (id : String)
    (h : ∀ b ∈ Providers.builtinIds, (getKey s.languageModels b).isSome) :
    ((Providers.getLanguageModel s id).1).isSome := by
  rw [Providers.getLanguageModel_fst_eq]
  unfold Providers.resolveImpl
  apply orElse_isSome_of_right
  apply orElse_isSome_of_right
  apply orElse_isSome_of_right
  apply orElse_isSome_of_right
  apply orElse_isSome_of_right
  exact h "kimi-k2" (by decide)

/-- Witness for C1: the registry in its initial state contains the
built-in models, and resolving a garbage identifier yields a binding. -/
theorem claim_C1_witness :
    (∀ b ∈ Providers.builtinIds, (getKey Providers.initialState.languageModels b).isSome) ∧
    ((Providers.getLanguageModel Providers.initialState "no-such-model-xyz").1).isSome :=
  ⟨by decide, claim_C1 Providers.initialState "no-such-model-xyz" (by decide)⟩

/-- Claim C2: for every configuration of servers, some of which are
unreachable (their connect or tool query throws), `initializeMCPClients`
returns the spread-merge union of the tool maps of the reachable
servers and never raises; when every server fails the result is the
empty tool map. -/
theorem claim_C2 (servers : List MCP.ServerSim) :
    (MCP.initializeMCPClients servers).tools = MCP.mergeAll (MCP.reachableToolMaps servers) ∧
    ((∀ srv ∈ servers, MCP.isOk srv.behavior = false) →
      (MCP.initializeMCPClients servers).tools = []) := by
  constructor
  · unfold MCP.initializeMCPClients MCP.mergeAll
    exact MCP.foldl_initStep_tools servers _
  · intro h
    unfold MCP.initializeMCPClients
    rw [MCP.foldl_initStep_tools, MCP.reachableToolMaps_nil_of_allFail servers h]
    rfl

/-- Witness for C2: with a single unreachable server the tool map is
empty rather than an error. -/
theorem claim_C2_witness :
    (∀ srv ∈ ([⟨"http://a.example/mcp", MCP.ServerBehavior.connectFail⟩] : List MCP.ServerSim),
        MCP.isOk srv.behavior = false) ∧
    (MCP.initializeMCPClients [⟨"http://a.example/mcp", MCP.ServerBehavior.connectFail⟩]).tools = [] :=
  ⟨by decide, (claim_C2 _).2 (by decide)⟩

/-- Claim C3 counterexample: the cleanup closure returned by
`initializeMCPClients` is not idempotent — invoking it a second time on
a result with one opened client repeats the disconnect work, so the
trace after two invocations differs from the trace after one. -/
theorem claim_C3_counterexample :
    MCP.runCleanup (MCP.initializeMCPClients [⟨"http://a.example/mcp", MCP.ServerBehavior.ok []⟩])
        (MCP.runCleanup (MCP.initializeMCPClients [⟨"http://a.example/mcp", MCP.ServerBehavior.ok []⟩]) []) ≠
      MCP.runCleanup (MCP.initializeMCPClients [⟨"http://a.example/mcp", MCP.ServerBehavior.ok []⟩]) [] := by
  decide

/-- Claim C3 (amended): each invocation of the cleanup closure calls
disconnect once per opened client (swallowing individual errors), with
no guard against repetition: after two invocations every client has
received exactly two disconnect calls. -/
theorem claim_C3_amended (clients trace : List String) (c : String) :
    (MCP.cleanupMCPClients clients (MCP.cleanupMCPClients clients trace)).count c =
      trace.count c + 2 * clients.count c := by
  unfold MCP.cleanupMCPClients
  rw [List.count_append, List.count_append]
  omega

/-- Claim C4: a reader interleaved with a refresh observes either the
complete pre-refresh registry state or the complete post-refresh state,
never a mixture: the states visible at the job boundaries of the
event-loop execution of `refreshModels` are exactly the pre- and
post-states, and any binding resolved from an observable state equals a
binding resolved from one of the two snapshots. -/
theorem claim_C4 (s : Providers.ProvidersState) (models : List Providers.FetchedModel)
    (st : Providers.ProvidersState) (hst : st ∈ Providers.observableStates s models) :
    (st = s ∨ st = Providers.refreshModels s models) ∧
    (∀ id, (Providers.getLanguageModel st id).1 = (Providers.getLanguageModel s id).1 ∨
      (Providers.getLanguageModel st id).1 =
        (Providers.getLanguageModel (Providers.refreshModels s models) id).1) := by
  rw [Providers.observableStates_eq] at hst
  have hcases : st = s ∨ st = Providers.refreshModels s models := by
    rcases List.mem_cons.mp hst with h | hst2
    · exact Or.inl h
    rcases List.mem_cons.mp hst2 with h | hst3
    · exact Or.inl h
    rcases List.mem_cons.mp hst3 with h | hst4
    · exact Or.inr h
    · simp at hst4
  refine ⟨hcases, fun id => ?_⟩
  rcases hcases with h | h
  · exact Or.inl (by rw [h])
  · exact Or.inr (by rw [h])

/-- Witness for C4: the initial state is observable at a job boundary of
a refresh with an empty fetched list, and it is one of the two
snapshots. -/
theorem claim_C4_witness :
    (Providers.initialState ∈ Providers.observableStates Providers.initialState []) ∧
    (Providers.initialState = Providers.initialState ∨
      Providers.initialState = Providers.refreshModels Providers.initialState []) :=
  ⟨by rw [Providers.observableStates_eq]; exact List.mem_cons_self _ _,
   (claim_C4 Providers.initialState [] Providers.initialState
     (by rw [Providers.observableStates_eq]; exact List.mem_cons_self _ _)).1⟩

/-- Claim C5 counterexample: resolution is not the order the claim
states. For the request "QWEN" with the registry holding only the
built-ins, a case-insensitive substring match (claim step 2) would
select the "qwen3-32b" binding, but the source's substring scans are
case-sensitive, so `getLanguageModel` falls through to the default and
returns the "kimi-k2" binding instead. -/
theorem claim_C5_counterexample :
    (Providers.getLanguageModel Providers.initialState "QWEN").1 =
        some (Providers.Binding.groq "moonshotai/kimi-k2-instruct") ∧
    Providers.resolveByClaimOrder Providers.initialState "QWEN" =
        some (Providers.Binding.groq "qwen/qwen3-32b") ∧
    Providers.Binding.groq "moonshotai/kimi-k2-instruct" ≠
        Providers.Binding.groq "qwen/qwen3-32b" := by
  refine ⟨by decide, by decide, by decide⟩

/-- Claim C5 (amended): resolution follows the deterministic order
(1) exact key match; (2) on-demand construction from the endpoint map;
(3) when the request contains "qwen" case-sensitively, the first key
whose lowercase form contains "qwen"; (4) the first key containing the
request as a case-sensitive substring; (5) the first key not starting
with a built-in name stem; (6) the default "kimi-k2" — and resolving
"unknown-id" against a registry holding only built-ins returns the
"kimi-k2" binding. -/
theorem claim_C5_amended :
    (∀ s id, (Providers.getLanguageModel s id).1 = Providers.resolveImpl s id) ∧
    (Providers.getLanguageModel Providers.initialState "unknown-id").1 =
      some (Providers.Binding.groq "moonshotai/kimi-k2-instruct") :=
  ⟨Providers.getLanguageModel_fst_eq, by decide⟩

/-- Claim C6 counterexample: the client-side probe `fetchOllamaModels`
cited by the claim does not return an empty list when both probes fail —
it returns the singleton list holding "default". -/
theorem claim_C6_counterexample :
    Discovery.fetchOllamaModels Discovery.ProbeOutcome.netError Discovery.ProbeOutcome.netError =
        [some "default"] ∧
    Discovery.fetchOllamaModels Discovery.ProbeOutcome.netError Discovery.ProbeOutcome.netError ≠
        ([] : List (Option String)) := by
  refine ⟨rfl, by decide⟩

/-- Claim C6 (amended): the server-side probe `discoverModels` behaves
exactly as the claim states — primary first (its success makes the
fallback irrelevant), fallback on any primary failure reading id-or-name
per record, empty list when both fail, never throwing — while the
client-side `fetchOllamaModels` returns the singleton "default" list
instead of the empty list when both probes fail. -/
theorem claim_C6_amended :
    (∀ body sec sec2, Discovery.discoverModels (Discovery.ProbeOutcome.ok body) sec =
        Discovery.discoverModels (Discovery.ProbeOutcome.ok body) sec2) ∧
    (∀ prim recs, Discovery.primaryFailed prim →
      Discovery.discoverModels prim (Discovery.ProbeOutcome.ok (some recs)) =
        recs.map (fun r => Discovery.jsOrStr r.id r.name)) ∧
    (∀ prim sec, Discovery.primaryFailed prim → Discovery.secondaryFailed sec →
      Discovery.discoverModels prim sec = []) ∧
    (∀ prim sec, Discovery.primaryFailed prim → Discovery.secondaryFailed sec →
      Discovery.fetchOllamaModels prim sec = [some "default"]) := by
  refine ⟨fun body sec sec2 => rfl, fun prim recs hp => ?_, fun prim sec hp hs => ?_,
    fun prim sec hp hs => ?_⟩
  · rcases hp with h | h <;> subst h <;> rfl
  · rcases hp with h | h <;> subst h <;>
      (rcases hs with h2 | h2 | h2 <;> subst h2 <;> rfl)
  · rcases hp with h | h <;> subst h <;>
      · rcases hs with h2 | h2 | h2 <;> subst h2
        · rfl
        · rfl
        · rfl

/-- Witness for C6: the scenario of the claim — primary probe fails with
a non-success response, fallback succeeds with one record named "m1" —
yields exactly the listing m1. -/
theorem claim_C6_witness :
    Discovery.primaryFailed Discovery.ProbeOutcome.httpFail ∧
    Discovery.discoverModels Discovery.ProbeOutcome.httpFail
        (Discovery.ProbeOutcome.ok (some [⟨some "m1", none⟩])) = [some "m1"] :=
  ⟨Or.inr rfl,
   (claim_C6_amended.2.1 Discovery.ProbeOutcome.httpFail [⟨some "m1", none⟩] (Or.inr rfl)).trans
     (by decide)⟩

/-- Claim C7 counterexample: a fetched dynamic model whose id collides
with the built-in id "kimi-k2" replaces the built-in binding during
refresh — afterwards the key "kimi-k2" maps to a local binding, and the
built-in Groq kimi binding is present nowhere in the registry. -/
theorem claim_C7_counterexample :
    getKey (Providers.refreshModels Providers.initialState
        [{ id := "kimi-k2", provider := "Ollama", name := "Kimi local",
           description := none, apiVersion := none, capabilities := none,
           baseUrl := some "http://localhost:11434", apiKey := none }]).languageModels
      "kimi-k2" =
      some (Providers.Binding.localOpenAI "http://localhost:11434/v1" "kimi-k2") ∧
    ((Providers.refreshModels Providers.initialState
        [{ id := "kimi-k2", provider := "Ollama", name := "Kimi local",
           description := none, apiVersion := none, capabilities := none,
           baseUrl := some "http://localhost:11434", apiKey := none }]).languageModels.all
      (fun p => p.2 != Providers.Binding.groq "moonshotai/kimi-k2-instruct")) = true := by
  refine ⟨by decide, by decide⟩

/-- Claim C7 (amended): after any refresh every built-in id is still a
key of the registry, and for a built-in id that no fetched model id
collides with, the binding after the refresh is exactly the built-in
binding — only the dynamically-sourced portion is replaced. -/
theorem claim_C7_amended (s : Providers.ProvidersState) (models : List Providers.FetchedModel)
    (b : String) (hb : b ∈ Providers.builtinIds) :
    (getKey (Providers.refreshModels s models).languageModels b).isSome ∧
    ((∀ m ∈ models, m.id ≠ b) →
      getKey (Providers.refreshModels s models).languageModels b =
        getKey Providers.baseLanguageModels b) := by
  have hbase : (getKey Providers.clearAndBase.languageModels b).isSome := by
    simp only [Providers.builtinIds, List.mem_cons, List.not_mem_nil, or_false] at hb
    rcases hb with rfl | rfl | rfl | rfl <;> decide
  constructor
  · unfold Providers.refreshModels
    apply Providers.foldl_createModelStep_isSome
    rw [Providers.foldl_registerEndpointStep_languageModels]
    exact hbase
  · intro hne
    unfold Providers.refreshModels
    rw [Providers.foldl_createModelStep_getKey_ne _ _ _ hne]
    rw [Providers.foldl_registerEndpointStep_languageModels]
    rfl

/-- Witness for C7: refreshing with an empty fetched list keeps the
built-in "kimi-k2" binding intact. -/
theorem claim_C7_witness :
    ("kimi-k2" ∈ Providers.builtinIds) ∧
    getKey (Providers.refreshModels Providers.initialState []).languageModels "kimi-k2" =
      getKey Providers.baseLanguageModels "kimi-k2" :=
  ⟨by decide,
   (claim_C7_amended Providers.initialState [] "kimi-k2" (by decide)).2
     (by intro m hm; simp at hm)⟩

/-- Claim C8: when two reachable servers expose a tool with the same
name, the merged tool map of `initializeMCPClients` holds the tool of
the server that appears later in iteration order — for any key present
in the second server's map, lookup in the merged map returns the second
server's entry. -/
theorem claim_C8 (u1 u2 : String) (t1 t2 : List (String × MCP.MCPTool)) (k : String)
    (hnd : (t2.map Prod.fst).Nodup) (hk : (getKey t2 k).isSome) :
    getKey (MCP.initializeMCPClients
        [⟨u1, MCP.ServerBehavior.ok t1⟩, ⟨u2, MCP.ServerBehavior.ok t2⟩]).tools k =
      getKey t2 k := by
  have htools : (MCP.initializeMCPClients
      [⟨u1, MCP.ServerBehavior.ok t1⟩, ⟨u2, MCP.ServerBehavior.ok t2⟩]).tools =
      jsSpread (jsSpread [] t1) t2 := rfl
  rw [htools]
  exact getKey_jsSpread_right t2 (jsSpread [] t1) k hnd hk

/-- Witness for C8: two servers both exposing a tool named "search"; the
merged map holds the second server's descriptor. -/
theorem claim_C8_witness :
    ((([("search", ⟨"from B", "schemaB"⟩)] : List (String × MCP.MCPTool)).map Prod.fst).Nodup) ∧
    getKey (MCP.initializeMCPClients
        [⟨"http://a.example", MCP.ServerBehavior.ok [("search", ⟨"from A", "schemaA"⟩)]⟩,
         ⟨"http://b.example", MCP.ServerBehavior.ok [("search", ⟨"from B", "schemaB"⟩)]⟩]).tools
      "search" = getKey [("search", (⟨"from B", "schemaB"⟩ : MCP.MCPTool))] "search" :=
  ⟨by decide,
   claim_C8 "http://a.example" "http://b.example"
     [("search", ⟨"from A", "schemaA"⟩)] [("search", ⟨"from B", "schemaB"⟩)] "search"
     (by decide) (by decide)⟩

/-- Claim C9 counterexample: restarting a connected server does not
produce the status sequence connected, connecting, (connected or
error) — the observed trace also contains the disconnected status
issued by the stop that `restartServer` performs first. -/
theorem claim_C9_counterexample :
    Tracker.restartServerTrace Tracker.ServerStatus.connected true ≠
        [Tracker.ServerStatus.connected, Tracker.ServerStatus.connecting,
         Tracker.ServerStatus.connected] ∧
    Tracker.restartServerTrace Tracker.ServerStatus.connected true ≠
        [Tracker.ServerStatus.connected, Tracker.ServerStatus.connecting,
         Tracker.ServerStatus.error] := by
  refine ⟨by decide, by decide⟩

/-- Claim C9 (amended): for a server that is connected when
`restartServer` is called, the observed status sequence is connected,
disconnected (from the stop), connecting (set after the fixed 500 ms
settle window), then connected or error depending on the start outcome;
the connecting state is always interposed and the server never goes
directly from connected to connected. -/
theorem claim_C9_amended (startSucceeds : Bool) :
    Tracker.restartServerTrace Tracker.ServerStatus.connected startSucceeds =
      [Tracker.ServerStatus.connected, Tracker.ServerStatus.disconnected,
       Tracker.ServerStatus.connecting,
       if startSucceeds then Tracker.ServerStatus.connected else Tracker.ServerStatus.error] ∧
    List.Chain' (fun a b => ¬(a = Tracker.ServerStatus.connected ∧
        b = Tracker.ServerStatus.connected))
      (Tracker.restartServerTrace Tracker.ServerStatus.connected startSucceeds) := by
  have heq : Tracker.restartServerTrace Tracker.ServerStatus.connected startSucceeds =
      [Tracker.ServerStatus.connected, Tracker.ServerStatus.disconnected,
       Tracker.ServerStatus.connecting,
       if startSucceeds then Tracker.ServerStatus.connected else Tracker.ServerStatus.error] := by
    cases startSucceeds <;> decide
  refine ⟨heq, ?_⟩
  rw [heq]
  cases startSucceeds <;>
    simp [List.chain'_cons, List.chain'_singleton]

/-- Claim C10: every key of the `languageModels` registry also has an
entry in `modelDetails`; the invariant holds in the initial state, is
re-established by every `refreshModels` (which rebuilds both maps in
step), and is preserved by `getLanguageModel` (which backfills default
metadata whenever it registers a binding on demand). -/
theorem claim_C10 :
    Providers.detailsInv Providers.initialState ∧
    (∀ s models, Providers.detailsInv (Providers.refreshModels s models)) ∧
    (∀ s id, Providers.detailsInv s →
      Providers.detailsInv (Providers.getLanguageModel s id).2) :=
  ⟨by decide, Providers.refreshModels_detailsInv, Providers.getLanguageModel_detailsInv⟩

/-- Witness for C10: the invariant holds initially and after resolving
an unregistered identifier in the initial state. -/
theorem claim_C10_witness :
    Providers.detailsInv Providers.initialState ∧
    Providers.detailsInv (Providers.getLanguageModel Providers.initialState "mistral").2 :=
  ⟨claim_C10.1, claim_C10.2.2 Providers.initialState "mistral" claim_C10.1⟩
